import Mathlib

/-!
# Verification of the streamr-drive control protocol engine

Shallow embedding of the repository's core logic:

* `message-controller.js` (the outbound/inbound message classifier and
  history): `upload`, the sent-history prepend, and the publish events.
* `streamr-drive.js`: the command dispatcher `processCommand`, the eight
  file-operation handlers over an explicit filesystem state, and the chunk
  progress aggregator `handleChunkUpdate`.

Strings that carry binary payloads (base64 bodies) are modelled as lists of
character codes (`List Nat`); byte buffers are lists of byte values.
The filesystem is a finite association map from paths (lists of name
segments, relative to the storage root) to nodes (file with content, or
directory).  `JSON.parse` of an inbound command body is represented by its
outcome (`ParseResult`): either a parse failure carrying the error message,
or the decoded command object; `JSON.stringify` of an outbound response is
represented by the response object itself carried on the text-kind outbound
event.
-/

/-! ## Message controller (message-controller.js) -/

/-- A domain message as handed to the message controller by a caller.
`deviceId` is optional: the callers in this repository never set it, and
`upload` stores the object as given. -/
structure MCMsg where
  type : String
  body : List Nat
  fileName : Option String := none
  fileSize : Option Nat := none
  deviceId : Option String := none
deriving DecidableEq, Repr

/-- The separately constructed object emitted on the publish event; it
always carries the controller's device id. -/
structure PubMsg where
  type : String
  body : List Nat
  fileName : Option String := none
  fileSize : Option Nat := none
  deviceId : String
deriving DecidableEq, Repr

/-- Mutable state of `StreamrMessageController`. -/
structure MCState where
  deviceId : String
  receivedMessages : List MCMsg
  sentMessages : List MCMsg
deriving DecidableEq, Repr

def SUPPORTED_MESSAGE_TYPES : List String := ["image", "text", "file"]

/-- `uploadImage(base64image)`: emits a fresh object with the device id. -/
def uploadImage (st : MCState) (body : List Nat) : PubMsg :=
  { type := "image", body := body, deviceId := st.deviceId }

/-- `uploadText(text)`: emits a fresh object with the device id. -/
def uploadText (st : MCState) (body : List Nat) : PubMsg :=
  { type := "text", body := body, deviceId := st.deviceId }

/-- `uploadFile(msg)`: emits a fresh object copying the file fields and
stamping the device id. -/
def uploadFile (st : MCState) (msg : MCMsg) : PubMsg :=
  { type := "file", fileName := msg.fileName, fileSize := msg.fileSize,
    body := msg.body, deviceId := st.deviceId }

/-- `upload(msg)`: throws "unknown content type" when `msg.type` is not
supported (before touching `sentMessages`); otherwise prepends the caller's
object to `sentMessages` and emits exactly one publish event.  An `error`
result models the thrown exception: the caller's state is unchanged and the
returned event list is empty. -/
def upload (st : MCState) (msg : MCMsg) : Except String (MCState × List PubMsg) :=
  if msg.type ∈ SUPPORTED_MESSAGE_TYPES then
    let st1 : MCState := { st with sentMessages := msg :: st.sentMessages }
    if msg.type = "image" then .ok (st1, [uploadImage st1 msg.body])
    else if msg.type = "text" then .ok (st1, [uploadText st1 msg.body])
    else .ok (st1, [uploadFile st1 msg])
  else .error "unknown content type"

/-! ## Base64 codec (Buffer.from(s, 'base64') / buf.toString('base64')) -/

/-- Three bytes become four sextets; one or two trailing bytes become two or
three sextets (the bits that padding would cover are zero). -/
def bytesToSextets : List Nat → List Nat
  | a :: b :: c :: rest =>
      a / 4 :: ((a % 4) * 16 + b / 16) :: ((b % 16) * 4 + c / 64) :: (c % 64)
        :: bytesToSextets rest
  | [a, b] => [a / 4, (a % 4) * 16 + b / 16, (b % 16) * 4]
  | [a] => [a / 4, (a % 4) * 16]
  | [] => []

/-- Four sextets become three bytes; three or two trailing sextets become two
or one bytes; a single trailing sextet carries no full byte. -/
def sextetsToBytes : List Nat → List Nat
  | w :: x :: y :: z :: rest =>
      (w * 4 + x / 16) :: ((x % 16) * 16 + y / 4) :: ((y % 4) * 64 + z)
        :: sextetsToBytes rest
  | [w, x, y] => [w * 4 + x / 16, (x % 16) * 16 + y / 4]
  | [w, x] => [w * 4 + x / 16]
  | [_] => []
  | [] => []

/-- The base64 alphabet `A-Z a-z 0-9 + /` as character codes. -/
def b64Alphabet : List Nat :=
  [65, 66, 67, 68, 69, 70, 71, 72, 73, 74, 75, 76, 77, 78, 79, 80, 81, 82,
   83, 84, 85, 86, 87, 88, 89, 90,
   97, 98, 99, 100, 101, 102, 103, 104, 105, 106, 107, 108, 109, 110, 111,
   112, 113, 114, 115, 116, 117, 118, 119, 120, 121, 122,
   48, 49, 50, 51, 52, 53, 54, 55, 56, 57, 43, 47]

def b64IndexAux (c : Nat) : List Nat → Nat → Option Nat
  | [], _ => none
  | a :: rest, i => if a = c then some i else b64IndexAux c rest (i + 1)

/-- Position of a character code in the base64 alphabet; `none` for padding
and any other character (the decoder skips those, as Node's does). -/
def b64Index (c : Nat) : Option Nat := b64IndexAux c b64Alphabet 0

def b64CharOfSextet (s : Nat) : Nat := b64Alphabet.getD s 0

def b64Pad (k : Nat) : List Nat :=
  if k = 1 then [61, 61] else if k = 2 then [61] else []

/-- `buf.toString('base64')`: sextets mapped through the alphabet, plus
`=` padding up to a multiple of four characters. -/
def b64Encode (l : List Nat) : List Nat :=
  (bytesToSextets l).map b64CharOfSextet ++ b64Pad (l.length % 3)

/-- `Buffer.from(s, 'base64')`: keep the alphabet characters, drop padding
and anything unrecognised, and reassemble bytes from the sextets. -/
def b64Decode (s : List Nat) : List Nat :=
  sextetsToBytes (s.filterMap b64Index)

/-! ## Filesystem model

The storage tree is a finite association map from paths (segment lists
relative to the storage root) to nodes.  The root itself always exists and
is a directory. -/

abbrev FsPath := List String

inductive Node where
  | file (content : List Nat)
  | dir
deriving DecidableEq, Repr

abbrev FS := List (FsPath × Node)

def lookup (fs : FS) (p : FsPath) : Option Node :=
  if p = [] then some Node.dir
  else (fs.find? (fun e => e.1 == p)).map (fun e => e.2)

/-- `fs.mkdir(path, recursive := true)`: walk the segments, creating each
missing ancestor as a directory; fail if a segment exists as a file. -/
def mkdirRecAux (fs : FS) (base : FsPath) : List String → Option FS
  | [] => some fs
  | s :: rest =>
    match lookup fs (base ++ [s]) with
    | some (Node.file _) => none
    | some Node.dir => mkdirRecAux fs (base ++ [s]) rest
    | none => mkdirRecAux ((base ++ [s], Node.dir) :: fs) (base ++ [s]) rest

def mkdirRec (fs : FS) (p : FsPath) : Option FS := mkdirRecAux fs [] p

/-- `fs.writeFile`: overwrite or create the file; fail on a directory. -/
def writeFile (fs : FS) (p : FsPath) (content : List Nat) : Option FS :=
  match lookup fs p with
  | some Node.dir => none
  | some (Node.file _) => some ((p, Node.file content) :: fs.filter (fun e => e.1 != p))
  | none => some ((p, Node.file content) :: fs)

def removeEntry (fs : FS) (p : FsPath) : FS :=
  fs.filter (fun e => e.1 != p)

def removeTree (fs : FS) (p : FsPath) : FS :=
  fs.filter (fun e => !(p.isPrefixOf e.1))

def renamePaths (fs : FS) (oldP newP : FsPath) : FS :=
  fs.map (fun e =>
    if oldP.isPrefixOf e.1 then (newP ++ e.1.drop oldP.length, e.2) else e)

def statSize : Node → Nat
  | .file c => c.length
  | .dir => 0

def isDirNode : Node → Bool
  | .file _ => false
  | .dir => true

/-- `fs.readdir`: the distinct names directly under a directory. -/
def childNames (fs : FS) (dirP : FsPath) : List String :=
  (fs.filterMap (fun e =>
    if e.1.length = dirP.length + 1 ∧ dirP.isPrefixOf e.1
    then e.1.getLast? else none)).dedup

/-! ## Commands, responses and outbound events (streamr-drive.js) -/

structure FileEntry where
  name : String
  isDirectory : Bool
  size : Nat
deriving DecidableEq, Repr

/-- A response object as passed to `sendResponse`.  Absent fields are
`none`; `JSON.stringify` omits them on the wire. -/
structure Response where
  action : Option String := none
  status : String
  message : Option String := none
  fileName : Option String := none
  dirName : Option String := none
  oldName : Option String := none
  newName : Option String := none
  path : Option FsPath := none
  size : Option Nat := none
  isDirectory : Option Bool := none
  timestamp : Option Nat := none
  files : Option (List FileEntry) := none
  messageId : Option String := none
  received : Option Int := none
  total : Option Int := none
  progress : Option ℚ := none
  complete : Option Bool := none
deriving DecidableEq, Repr

/-- A decoded command object.  Field values that JavaScript treats as falsy
(`undefined` or the empty string / empty data) are modelled by `none` or by
the empty value, and the handlers test both, mirroring `!command.field`.
`action` is optional as well: a body such as `{}` parses fine with
`command.action` undefined, which matches no switch case. -/
structure Command where
  action : Option String := none
  path : Option FsPath := none
  fileName : Option String := none
  data : Option (List Nat) := none
  dirName : Option String := none
  oldName : Option String := none
  newName : Option String := none
deriving DecidableEq, Repr

/-- Outcome of `JSON.parse(message.body)`. -/
inductive ParseResult where
  | fail (errMsg : String)
  | ok (c : Command)
deriving DecidableEq, Repr

/-- An inbound domain message as seen by `processCommand`: its type tag and
the parse outcome of its body. -/
structure InMsg where
  type : String
  parsed : ParseResult
deriving DecidableEq, Repr

/-- One outbound emission of the drive: either `sendResponse(r)` (which
uploads a text-kind message whose body is the JSON-encoded response) or the
file-kind domain message published by the download handler. -/
inductive OutEvent where
  | resp (r : Response)
  | fileMsg (fileName : String) (fileSize : Nat) (body : List Nat)
deriving DecidableEq, Repr

def errResp (a : String) (m : String) : Response :=
  { action := some a, status := "error", message := some m }

/-! ## File operation handlers -/

def handlePing (now : Nat) (fs : FS) (_c : Command) : FS × List OutEvent :=
  (fs, [.resp { action := some "pong", status := "success", timestamp := some now }])

def listFiles (fs : FS) (c : Command) : FS × List OutEvent :=
  let dirP := c.path.getD []
  match lookup fs dirP with
  | none => (fs, [.resp (errResp "list" "Directory not found")])
  | some (Node.file _) =>
      (fs, [.resp (errResp "list" "Error listing files: ENOTDIR")])
  | some Node.dir =>
      let files := (childNames fs dirP).map (fun n =>
        let nd := (lookup fs (dirP ++ [n])).getD Node.dir
        { name := n, isDirectory := isDirNode nd, size := statSize nd })
      (fs, [.resp { action := some "list", status := "success",
                    path := some dirP, files := some files }])

def saveFile (fs : FS) (c : Command) : FS × List OutEvent :=
  match c.fileName, c.data with
  | some fn, some d =>
    if fn = "" ∨ d = [] then
      (fs, [.resp (errResp "upload" "Missing fileName or data")])
    else
      let dirP := c.path.getD []
      match mkdirRec fs dirP with
      | none => (fs, [.resp (errResp "upload" "Error saving file: ENOTDIR")])
      | some fs1 =>
        let buffer := b64Decode d
        match writeFile fs1 (dirP ++ [fn]) buffer with
        | none => (fs1, [.resp (errResp "upload" "Error saving file: EISDIR")])
        | some fs2 =>
          (fs2, [.resp { action := some "upload", status := "success",
                         fileName := some fn, path := some dirP,
                         size := some buffer.length }])
  | _, _ => (fs, [.resp (errResp "upload" "Missing fileName or data")])

def downloadFile (fs : FS) (c : Command) : FS × List OutEvent :=
  match c.fileName with
  | some fn =>
    if fn = "" then (fs, [.resp (errResp "download" "Missing fileName")])
    else
      let dirP := c.path.getD []
      match lookup fs (dirP ++ [fn]) with
      | none => (fs, [.resp (errResp "download" "File not found")])
      | some Node.dir =>
          (fs, [.resp (errResp "download" "Error downloading file: EISDIR")])
      | some (Node.file content) =>
          (fs, [.fileMsg fn content.length (b64Encode content),
                .resp { action := some "download", status := "success",
                        fileName := some fn, path := some dirP,
                        size := some content.length }])
  | none => (fs, [.resp (errResp "download" "Missing fileName")])

def deleteFile (fs : FS) (c : Command) : FS × List OutEvent :=
  match c.fileName with
  | some fn =>
    if fn = "" then (fs, [.resp (errResp "delete" "Missing fileName")])
    else
      let dirP := c.path.getD []
      match lookup fs (dirP ++ [fn]) with
      | none => (fs, [.resp (errResp "delete" "File not found")])
      | some Node.dir =>
          (removeTree fs (dirP ++ [fn]),
           [.resp { action := some "delete", status := "success",
                    fileName := some fn, path := some dirP }])
      | some (Node.file _) =>
          (removeEntry fs (dirP ++ [fn]),
           [.resp { action := some "delete", status := "success",
                    fileName := some fn, path := some dirP }])
  | none => (fs, [.resp (errResp "delete" "Missing fileName")])

def createDirectory (fs : FS) (c : Command) : FS × List OutEvent :=
  match c.dirName with
  | some dn =>
    if dn = "" then (fs, [.resp (errResp "mkdir" "Missing dirName")])
    else
      let dirP := c.path.getD []
      match mkdirRec fs (dirP ++ [dn]) with
      | none => (fs, [.resp (errResp "mkdir" "Error creating directory: ENOTDIR")])
      | some fs1 =>
          (fs1, [.resp { action := some "mkdir", status := "success",
                         dirName := some dn, path := some dirP }])
  | none => (fs, [.resp (errResp "mkdir" "Missing dirName")])

def getFileInfo (fs : FS) (c : Command) : FS × List OutEvent :=
  match c.fileName with
  | some fn =>
    if fn = "" then (fs, [.resp (errResp "info" "Missing fileName")])
    else
      let dirP := c.path.getD []
      match lookup fs (dirP ++ [fn]) with
      | none => (fs, [.resp (errResp "info" "File not found")])
      | some nd =>
          (fs, [.resp { action := some "info", status := "success",
                        fileName := some fn, path := some dirP,
                        size := some (statSize nd),
                        isDirectory := some (isDirNode nd) }])
  | none => (fs, [.resp (errResp "info" "Missing fileName")])

def renameFile (fs : FS) (c : Command) : FS × List OutEvent :=
  match c.oldName, c.newName with
  | some oldN, some newN =>
    if oldN = "" ∨ newN = "" then
      (fs, [.resp (errResp "rename" "Missing oldName or newName")])
    else
      let dirP := c.path.getD []
      let oldP := dirP ++ [oldN]
      let newP := dirP ++ [newN]
      match lookup fs oldP with
      | none => (fs, [.resp (errResp "rename" "Source file/folder not found")])
      | some _ =>
        match lookup fs newP with
        | some _ => (fs, [.resp (errResp "rename" "Destination already exists")])
        | none =>
          let fs1 := renamePaths fs oldP newP
          match lookup fs1 newP with
          | some nd =>
              (fs1, [.resp { action := some "rename", status := "success",
                             oldName := some oldN, newName := some newN,
                             path := some dirP,
                             isDirectory := some (isDirNode nd),
                             size := some (statSize nd) }])
          | none =>
              (fs1, [.resp (errResp "rename" "Error renaming file/folder: ENOENT")])
  | _, _ => (fs, [.resp (errResp "rename" "Missing oldName or newName")])

/-! ## Command dispatcher -/

/-- The switch on `command.action` inside `processCommand`.  The default
branch echoes `command.action` into the response: when the parsed body had
no action field, the echoed value is absent too (`JSON.stringify` drops an
undefined property on the wire). -/
def dispatch (now : Nat) (fs : FS) (c : Command) : FS × List OutEvent :=
  if c.action = some "ping" then handlePing now fs c
  else if c.action = some "list" then listFiles fs c
  else if c.action = some "upload" then saveFile fs c
  else if c.action = some "download" then downloadFile fs c
  else if c.action = some "delete" then deleteFile fs c
  else if c.action = some "mkdir" then createDirectory fs c
  else if c.action = some "info" then getFileInfo fs c
  else if c.action = some "rename" then renameFile fs c
  else (fs, [.resp { action := c.action, status := "error",
                     message := some "Unknown command" }])

/-- `processCommand(message)`: non-text messages are ignored; a body that
fails `JSON.parse` lands in the catch block, which sends a response with
only `status` and `message` (no `action` field); otherwise the command is
dispatched by action. -/
def processCommand (now : Nat) (fs : FS) (msg : InMsg) : FS × List OutEvent :=
  if msg.type ≠ "text" then (fs, [])
  else
    match msg.parsed with
    | .fail e =>
        (fs, [.resp { status := "error",
                      message := some ("Error processing command: " ++ e) }])
    | .ok c => dispatch now fs c

/-! ## Chunk progress aggregator (handleChunkUpdate) -/

structure ChunkUpdate where
  messageId : String
  noOfChunks : Nat
  lastChunkId : Nat
  progress : ℚ
deriving DecidableEq, Repr

/-- JavaScript's `Math.round`: floor of the argument plus one half.
Stated with the executable `Rat.floor`; `jsRound_eq_floor` identifies it
with the mathematical floor. -/
def jsRound (q : ℚ) : Int := (q + 1 / 2).floor

/-- `total = lastChunkId + 1` (chunk ids are zero-based). -/
def chunkTotal (u : ChunkUpdate) : Int := (u.lastChunkId : Int) + 1

/-- `received = Math.round((progressPercent / 100) * total)`. -/
def chunkReceived (u : ChunkUpdate) : Int :=
  jsRound (u.progress / 100 * (chunkTotal u : ℚ))

def progressResp (u : ChunkUpdate) : Response :=
  { action := some "upload-progress", status := "info",
    messageId := some u.messageId,
    received := some (chunkReceived u), total := some (chunkTotal u),
    progress := some u.progress,
    complete := some (decide (u.progress = 100)) }

/-- One iteration of the loop body of `handleChunkUpdate`. -/
def processUpdate (u : ChunkUpdate) : List OutEvent :=
  if chunkReceived u % 2 = 0 ∨ chunkReceived u = chunkTotal u then
    [.resp (progressResp u)]
  else []

def handleChunkUpdate (updates : List ChunkUpdate) : List OutEvent :=
  (updates.map processUpdate).flatten

/-- The responses among a list of outbound events, in order. -/
def respEvents (evs : List OutEvent) : List Response :=
  evs.filterMap (fun e =>
    match e with
    | .resp r => some r
    | .fileMsg _ _ _ => none)

/-- The response statuses named by the wire format. -/
def STATUSES : List String := ["success", "error", "info"]

/-! ## Theorems -/

/-! sanity checks -/

example : upload (MCState.mk "d" [] []) { type := "video", body := [] }
    = .error "unknown content type" := rfl

example : upload (MCState.mk "d" [] []) { type := "text", body := [65] }
    = .ok (MCState.mk "d" [] [{ type := "text", body := [65] }],
           [{ type := "text", body := [65], deviceId := "d" }]) := rfl

/-- C1: the outbound publish operation `upload` succeeds exactly when the
message type is one of image, text, file; for any other type it raises the
"unknown content type" error, so the sent history is not prepended and no
publish event is emitted. -/
theorem upload_succeeds_iff_supported (st : MCState) (msg : MCMsg) :
    ((∃ p, upload st msg = .ok p) ↔ msg.type ∈ SUPPORTED_MESSAGE_TYPES) ∧
    (msg.type ∉ SUPPORTED_MESSAGE_TYPES →
      upload st msg = .error "unknown content type") := by
  constructor
  · constructor
    · rintro ⟨p, hp⟩
      by_contra hmem
      rw [upload, if_neg hmem] at hp
      exact Except.noConfusion hp
    · intro hmem
      simp only [upload, if_pos hmem]
      by_cases h1 : msg.type = "image"
      · exact ⟨_, by rw [if_pos h1]⟩
      · by_cases h2 : msg.type = "text"
        · exact ⟨_, by rw [if_neg h1, if_pos h2]⟩
        · exact ⟨_, by rw [if_neg h1, if_neg h2]⟩
  · intro hmem
    simp only [upload, if_neg hmem]

/-- Witness for C1 at a concrete unsupported message type. -/
theorem upload_succeeds_iff_supported_witness :
    ("video" ∉ SUPPORTED_MESSAGE_TYPES) ∧
    upload (MCState.mk "dev" [] []) { type := "video", body := [1, 2] }
      = .error "unknown content type" :=
  ⟨by decide,
   (upload_succeeds_iff_supported (MCState.mk "dev" [] [])
     { type := "video", body := [1, 2] }).2 (by decide)⟩

/-- C10: on a successful publish, the entry prepended to the sent history is
the caller's original message object, unmodified (in particular its device-id
field stays as the caller left it, `none` for every caller in this
repository), while every object emitted on the publish event carries the
controller's device id. -/
theorem upload_history_keeps_original (st : MCState) (msg : MCMsg)
    (st1 : MCState) (evs : List PubMsg)
    (h : upload st msg = .ok (st1, evs)) :
    st1.sentMessages = msg :: st.sentMessages ∧
    st1.sentMessages.head? = some msg ∧
    ∀ e ∈ evs, e.deviceId = st.deviceId := by
  simp only [upload] at h
  by_cases hmem : msg.type ∈ SUPPORTED_MESSAGE_TYPES
  · rw [if_pos hmem] at h
    by_cases h1 : msg.type = "image"
    · rw [if_pos h1] at h
      cases h
      refine ⟨rfl, rfl, ?_⟩
      intro e he
      simp only [List.mem_singleton] at he
      subst he; rfl
    · rw [if_neg h1] at h
      by_cases h2 : msg.type = "text"
      · rw [if_pos h2] at h
        cases h
        refine ⟨rfl, rfl, ?_⟩
        intro e he
        simp only [List.mem_singleton] at he
        subst he; rfl
      · rw [if_neg h2] at h
        cases h
        refine ⟨rfl, rfl, ?_⟩
        intro e he
        simp only [List.mem_singleton] at he
        subst he; rfl
  · rw [if_neg hmem] at h
    cases h

/-- Witness for C10 at a concrete text message. -/
theorem upload_history_keeps_original_witness :
    (MCState.mk "d" [] [{ type := "text", body := [7] }]).sentMessages
      = { type := "text", body := [7] } :: (MCState.mk "d" [] []).sentMessages ∧
    (MCState.mk "d" [] [{ type := "text", body := [7] }]).sentMessages.head?
      = some { type := "text", body := [7] } ∧
    ∀ e ∈ [({ type := "text", body := [7], deviceId := "d" } : PubMsg)],
      e.deviceId = (MCState.mk "d" [] []).deviceId :=
  upload_history_keeps_original (MCState.mk "d" [] [])
    { type := "text", body := [7] }
    (MCState.mk "d" [] [{ type := "text", body := [7] }])
    [{ type := "text", body := [7], deviceId := "d" }]
    rfl

example : b64Encode [77, 97, 110] = [84, 87, 70, 117] := by decide
example : b64Decode (b64Encode [77, 97]) = [77, 97] := by decide
example : b64Decode (b64Encode [255]) = [255] := by decide

theorem jsRound_eq_floor (q : ℚ) : jsRound q = ⌊q + 1 / 2⌋ := by
  rw [jsRound, Rat.floor_def', Rat.floor_def]

example : processUpdate ⟨"m", 10, 9, 50⟩ = [] := by
  have h : chunkReceived ⟨"m", 10, 9, 50⟩ = 5 := by
    rw [chunkReceived, jsRound_eq_floor]; norm_num [chunkTotal]
  rw [processUpdate, h, if_neg]
  norm_num [chunkTotal]

/-! ### One response per handler invocation -/

theorem handlePing_one (now : Nat) (fs : FS) (c : Command) :
    ∃ r, respEvents (handlePing now fs c).2 = [r] ∧
      r.status ∈ STATUSES ∧ r.action.isSome :=
  ⟨_, rfl, by simp [STATUSES], rfl⟩

theorem listFiles_one (fs : FS) (c : Command) :
    ∃ r, respEvents (listFiles fs c).2 = [r] ∧
      r.status ∈ STATUSES ∧ r.action.isSome := by
  simp only [listFiles]
  repeat' split
  all_goals exact ⟨_, rfl, by simp [STATUSES, errResp], rfl⟩

theorem saveFile_one (fs : FS) (c : Command) :
    ∃ r, respEvents (saveFile fs c).2 = [r] ∧
      r.status ∈ STATUSES ∧ r.action.isSome := by
  simp only [saveFile]
  repeat' split
  all_goals exact ⟨_, rfl, by simp [STATUSES, errResp], rfl⟩

theorem downloadFile_one (fs : FS) (c : Command) :
    ∃ r, respEvents (downloadFile fs c).2 = [r] ∧
      r.status ∈ STATUSES ∧ r.action.isSome := by
  simp only [downloadFile]
  repeat' split
  all_goals exact ⟨_, rfl, by simp [STATUSES, errResp], rfl⟩

theorem deleteFile_one (fs : FS) (c : Command) :
    ∃ r, respEvents (deleteFile fs c).2 = [r] ∧
      r.status ∈ STATUSES ∧ r.action.isSome := by
  simp only [deleteFile]
  repeat' split
  all_goals exact ⟨_, rfl, by simp [STATUSES, errResp], rfl⟩

theorem createDirectory_one (fs : FS) (c : Command) :
    ∃ r, respEvents (createDirectory fs c).2 = [r] ∧
      r.status ∈ STATUSES ∧ r.action.isSome := by
  simp only [createDirectory]
  repeat' split
  all_goals exact ⟨_, rfl, by simp [STATUSES, errResp], rfl⟩

theorem getFileInfo_one (fs : FS) (c : Command) :
    ∃ r, respEvents (getFileInfo fs c).2 = [r] ∧
      r.status ∈ STATUSES ∧ r.action.isSome := by
  simp only [getFileInfo]
  repeat' split
  all_goals exact ⟨_, rfl, by simp [STATUSES, errResp], rfl⟩

theorem renameFile_one (fs : FS) (c : Command) :
    ∃ r, respEvents (renameFile fs c).2 = [r] ∧
      r.status ∈ STATUSES ∧ r.action.isSome := by
  simp only [renameFile]
  repeat' split
  all_goals exact ⟨_, rfl, by simp [STATUSES, errResp], rfl⟩

theorem dispatch_one (now : Nat) (fs : FS) (c : Command) :
    ∃ r, respEvents (dispatch now fs c).2 = [r] ∧
      r.status ∈ STATUSES ∧ (r.action = none → c.action = none) := by
  rw [dispatch]
  by_cases h1 : c.action = some "ping"
  · rw [if_pos h1]
    obtain ⟨r, ha, hb, hc⟩ := handlePing_one now fs c
    exact ⟨r, ha, hb, fun hn => absurd (hn ▸ hc) (by simp)⟩
  rw [if_neg h1]
  by_cases h2 : c.action = some "list"
  · rw [if_pos h2]
    obtain ⟨r, ha, hb, hc⟩ := listFiles_one fs c
    exact ⟨r, ha, hb, fun hn => absurd (hn ▸ hc) (by simp)⟩
  rw [if_neg h2]
  by_cases h3 : c.action = some "upload"
  · rw [if_pos h3]
    obtain ⟨r, ha, hb, hc⟩ := saveFile_one fs c
    exact ⟨r, ha, hb, fun hn => absurd (hn ▸ hc) (by simp)⟩
  rw [if_neg h3]
  by_cases h4 : c.action = some "download"
  · rw [if_pos h4]
    obtain ⟨r, ha, hb, hc⟩ := downloadFile_one fs c
    exact ⟨r, ha, hb, fun hn => absurd (hn ▸ hc) (by simp)⟩
  rw [if_neg h4]
  by_cases h5 : c.action = some "delete"
  · rw [if_pos h5]
    obtain ⟨r, ha, hb, hc⟩ := deleteFile_one fs c
    exact ⟨r, ha, hb, fun hn => absurd (hn ▸ hc) (by simp)⟩
  rw [if_neg h5]
  by_cases h6 : c.action = some "mkdir"
  · rw [if_pos h6]
    obtain ⟨r, ha, hb, hc⟩ := createDirectory_one fs c
    exact ⟨r, ha, hb, fun hn => absurd (hn ▸ hc) (by simp)⟩
  rw [if_neg h6]
  by_cases h7 : c.action = some "info"
  · rw [if_pos h7]
    obtain ⟨r, ha, hb, hc⟩ := getFileInfo_one fs c
    exact ⟨r, ha, hb, fun hn => absurd (hn ▸ hc) (by simp)⟩
  rw [if_neg h7]
  by_cases h8 : c.action = some "rename"
  · rw [if_pos h8]
    obtain ⟨r, ha, hb, hc⟩ := renameFile_one fs c
    exact ⟨r, ha, hb, fun hn => absurd (hn ▸ hc) (by simp)⟩
  rw [if_neg h8]
  exact ⟨_, rfl, by simp [STATUSES], fun hn => hn⟩

theorem processCommand_text_eq (now : Nat) (fs : FS) (parsed : ParseResult) :
    processCommand now fs ⟨"text", parsed⟩
      = match parsed with
        | .fail e =>
            (fs, [.resp { status := "error",
                          message := some ("Error processing command: " ++ e) }])
        | .ok c => dispatch now fs c := by
  rw [processCommand]
  simp

theorem respEvents_append (a b : List OutEvent) :
    respEvents (a ++ b) = respEvents a ++ respEvents b :=
  List.filterMap_append a b _

theorem mem_respEvents_processUpdate (u : ChunkUpdate) (r : Response)
    (h : r ∈ respEvents (processUpdate u)) : r = progressResp u := by
  rw [processUpdate] at h
  by_cases hc : chunkReceived u % 2 = 0 ∨ chunkReceived u = chunkTotal u
  · rw [if_pos hc] at h
    have h2 : r ∈ [progressResp u] := h
    simpa using h2
  · rw [if_neg hc] at h
    have h2 : r ∈ ([] : List Response) := h
    simp at h2

theorem mem_respEvents_handleChunkUpdate (us : List ChunkUpdate) (r : Response)
    (h : r ∈ respEvents (handleChunkUpdate us)) : ∃ u ∈ us, r = progressResp u := by
  induction us with
  | nil => simp [handleChunkUpdate, respEvents] at h
  | cons u rest ih =>
    rw [handleChunkUpdate, List.map_cons, List.flatten_cons, respEvents_append] at h
    rcases List.mem_append.mp h with h1 | h2
    · exact ⟨u, by simp, mem_respEvents_processUpdate u r h1⟩
    · obtain ⟨u1, hu1, hr1⟩ := ih h2
      exact ⟨u1, by simp [hu1], hr1⟩

/-- C2: every inbound text-kind message — whether its body parses as a
well-formed command, fails to parse, or names an unknown action — produces
exactly one response, published through `sendResponse` (an `upload` of a
text-kind message whose body is the JSON-encoded response). -/
theorem processCommand_exactly_one_response (now : Nat) (fs : FS)
    (parsed : ParseResult) :
    ∃ r, respEvents (processCommand now fs ⟨"text", parsed⟩).2 = [r] := by
  cases parsed with
  | fail e =>
    exact ⟨_, by simp only [processCommand_text_eq]; rfl⟩
  | ok c =>
    obtain ⟨r, hr, _, _⟩ := dispatch_one now fs c
    refine ⟨r, ?_⟩
    rw [processCommand_text_eq]
    exact hr

/-- C4: a command whose action is outside the known table produces exactly
one response, the "Unknown command" error echoing the action, and the
filesystem state is untouched (no handler runs). -/
theorem unknown_action_unique_error (now : Nat) (fs : FS) (c : Command)
    (h : c.action ∉ ([some "ping", some "list", some "upload",
                      some "download", some "delete", some "mkdir",
                      some "info", some "rename"] : List (Option String))) :
    processCommand now fs ⟨"text", .ok c⟩
      = (fs, [.resp { action := c.action, status := "error",
                      message := some "Unknown command" }]) := by
  simp only [List.mem_cons, List.not_mem_nil, or_false, not_or] at h
  obtain ⟨h1, h2, h3, h4, h5, h6, h7, h8⟩ := h
  have hd : processCommand now fs ⟨"text", .ok c⟩ = dispatch now fs c := by
    rw [processCommand_text_eq]
  rw [hd, dispatch, if_neg h1, if_neg h2, if_neg h3, if_neg h4, if_neg h5,
    if_neg h6, if_neg h7, if_neg h8]

/-- Witness for C4 at a concrete unknown action. -/
theorem unknown_action_unique_error_witness :
    (some "frobnicate" ∉ ([some "ping", some "list", some "upload",
                           some "download", some "delete", some "mkdir",
                           some "info", some "rename"] : List (Option String))) ∧
    processCommand 0 [] ⟨"text", .ok { action := some "frobnicate" }⟩
      = ([], [.resp { action := some "frobnicate", status := "error",
                      message := some "Unknown command" }]) :=
  ⟨by decide,
   unknown_action_unique_error 0 [] { action := some "frobnicate" }
     (by decide)⟩

/-- C3 counterexample: at a concrete text message whose body fails JSON
parsing, the engine publishes a response whose `action` field is absent,
contradicting the claim that every published response includes `action`. -/
theorem parse_failure_response_lacks_action :
    ∃ r, r ∈ respEvents (processCommand 0 []
        ⟨"text", .fail "Unexpected end of JSON input"⟩).2 ∧
      r.action = none :=
  ⟨{ status := "error",
     message := some "Error processing command: Unexpected end of JSON input" },
   by decide, rfl⟩

/-- C3 (amended): every response published by the dispatcher or the chunk
progress aggregator has a status among success, error, info; every such
response carries an `action` field except in two cases, which carry none:
the error response produced when the text body fails to parse as JSON
(only `status` and `message`), and the Unknown-command error response for
a command whose parsed body itself has no action field (the response
echoes the absent action, which `JSON.stringify` then omits). -/
theorem responses_status_action (now : Nat) (fs : FS)
    (parsed : ParseResult) (us : List ChunkUpdate) :
    (∀ r ∈ respEvents (processCommand now fs ⟨"text", parsed⟩).2,
        r.status ∈ STATUSES ∧
        (r.action = none →
          (∃ e, parsed = .fail e) ∨
          (∃ c, parsed = .ok c ∧ c.action = none))) ∧
    (∀ r ∈ respEvents (handleChunkUpdate us),
        r.status = "info" ∧ r.action = some "upload-progress") := by
  constructor
  · cases parsed with
    | fail e =>
      intro r hr
      simp only [processCommand_text_eq] at hr
      have hr2 : r ∈
          [({ status := "error",
              message := some ("Error processing command: " ++ e) } : Response)] := hr
      simp only [List.mem_singleton] at hr2
      subst hr2
      exact ⟨by simp [STATUSES], fun _ => Or.inl ⟨e, rfl⟩⟩
    | ok c =>
      intro r hr
      simp only [processCommand_text_eq] at hr
      obtain ⟨r0, hr0, hst, hact⟩ := dispatch_one now fs c
      rw [hr0] at hr
      simp only [List.mem_singleton] at hr
      subst hr
      exact ⟨hst, fun hnone => Or.inr ⟨c, rfl, hact hnone⟩⟩
  · intro r hr
    obtain ⟨u, _, rfl⟩ := mem_respEvents_handleChunkUpdate us r hr
    exact ⟨rfl, rfl⟩

/-- Witness for the amended C3: a concrete ping command (action present)
and a concrete command decoded from a body like `{}` (no action field),
whose Unknown-command error response indeed carries no action. -/
theorem responses_status_action_witness :
    (({ action := some "pong", status := "success",
        timestamp := some 5 } : Response).status ∈ STATUSES ∧
      (({ action := some "pong", status := "success",
          timestamp := some 5 } : Response).action = none →
        (∃ e, (ParseResult.ok { action := some "ping" }) = .fail e) ∨
        (∃ c, (ParseResult.ok { action := some "ping" }) = .ok c ∧
          c.action = none))) ∧
    (({ status := "error",
        message := some "Unknown command" } : Response).status ∈ STATUSES ∧
      (({ status := "error",
          message := some "Unknown command" } : Response).action = none →
        (∃ e, (ParseResult.ok ({} : Command)) = .fail e) ∨
        (∃ c, (ParseResult.ok ({} : Command)) = .ok c ∧ c.action = none))) :=
  ⟨(responses_status_action 5 [] (.ok { action := some "ping" }) []).1
     { action := some "pong", status := "success", timestamp := some 5 }
     (by decide),
   (responses_status_action 0 [] (.ok ({} : Command)) []).1
     { status := "error", message := some "Unknown command" }
     (by decide)⟩

/-! ### Rename conflict (C5) and download behaviour (C9) -/

/-- C5: a rename whose destination entry already exists yields a single
error response and leaves the filesystem — hence both the source and the
destination entry — exactly as it was; the rename is never attempted. -/
theorem rename_conflict_error (fs : FS) (c : Command) (newN : String)
    (hnn : c.newName = some newN)
    (hex : lookup fs ((c.path.getD []) ++ [newN]) ≠ none) :
    ∃ r, renameFile fs c = (fs, [.resp r]) ∧ r.status = "error" := by
  cases hold : c.oldName with
  | none =>
    refine ⟨errResp "rename" "Missing oldName or newName", ?_, rfl⟩
    simp only [renameFile, hold, hnn]
  | some oldN =>
    by_cases hemp : oldN = "" ∨ newN = ""
    · refine ⟨errResp "rename" "Missing oldName or newName", ?_, rfl⟩
      simp only [renameFile, hold, hnn, if_pos hemp]
    · cases hl : lookup fs ((c.path.getD []) ++ [oldN]) with
      | none =>
        refine ⟨errResp "rename" "Source file/folder not found", ?_, rfl⟩
        simp only [renameFile, hold, hnn, if_neg hemp, hl]
      | some nd =>
        cases hl2 : lookup fs ((c.path.getD []) ++ [newN]) with
        | none => exact absurd hl2 hex
        | some nd2 =>
          refine ⟨errResp "rename" "Destination already exists", ?_, rfl⟩
          simp only [renameFile, hold, hnn, if_neg hemp, hl, hl2]

/-- Witness for C5 where both source and destination exist. -/
theorem rename_conflict_error_witness :
    ∃ r, renameFile [((["a"] : FsPath), Node.file [1]),
                     ((["b"] : FsPath), Node.file [2])]
        { action := some "rename", oldName := some "a", newName := some "b" }
      = ([((["a"] : FsPath), Node.file [1]),
          ((["b"] : FsPath), Node.file [2])], [.resp r]) ∧
      r.status = "error" :=
  rename_conflict_error _ _ "b" rfl (by decide)

/-- C9: a download of a missing file produces only the "File not found"
error response, with no file-kind publish; a download of an existing file
first publishes the file-kind message carrying the base64-encoded content
and then the success response carrying the file size. -/
theorem download_publishes_then_confirms (fs : FS) (c : Command) (fn : String)
    (hfn : c.fileName = some fn) (hne : fn ≠ "") :
    (lookup fs ((c.path.getD []) ++ [fn]) = none →
      downloadFile fs c = (fs, [.resp (errResp "download" "File not found")])) ∧
    (∀ content, lookup fs ((c.path.getD []) ++ [fn]) = some (Node.file content) →
      downloadFile fs c
        = (fs, [.fileMsg fn content.length (b64Encode content),
                .resp { action := some "download", status := "success",
                        fileName := some fn, path := some (c.path.getD []),
                        size := some content.length }])) := by
  constructor
  · intro hl
    simp only [downloadFile, hfn, if_neg hne, hl]
  · intro content hl
    simp only [downloadFile, hfn, if_neg hne, hl]

/-- Witness for C9: a missing file and an existing two-byte file. -/
theorem download_publishes_then_confirms_witness :
    downloadFile [] { action := some "download", fileName := some "ghost.txt" }
      = ([], [.resp (errResp "download" "File not found")]) ∧
    downloadFile [((["f.txt"] : FsPath), Node.file [104, 105])]
        { action := some "download", fileName := some "f.txt" }
      = ([((["f.txt"] : FsPath), Node.file [104, 105])],
         [.fileMsg "f.txt" 2 (b64Encode [104, 105]),
          .resp { action := some "download", status := "success",
                  fileName := some "f.txt", path := some ([] : FsPath),
                  size := some 2 }]) :=
  ⟨(download_publishes_then_confirms [] _ "ghost.txt" rfl (by decide)).1 rfl,
   (download_publishes_then_confirms _ _ "f.txt" rfl (by decide)).2 [104, 105] rfl⟩

/-! ### Idempotence of recursive directory creation (C8) -/

theorem lookup_cons_ne (fs : FS) (p q : FsPath) (n0 : Node) (h : p ≠ q) :
    lookup ((p, n0) :: fs) q = lookup fs q := by
  unfold lookup
  by_cases hq : q = []
  · simp [hq]
  · rw [if_neg hq, if_neg hq]
    have hb : (((p, n0) : FsPath × Node).1 == q) = false := by simp [h]
    simp only [List.find?_cons, hb]

theorem lookup_cons_self (fs : FS) (p : FsPath) (n0 : Node) (h : p ≠ []) :
    lookup ((p, n0) :: fs) p = some n0 := by
  unfold lookup
  rw [if_neg h]
  have hb : (((p, n0) : FsPath × Node).1 == p) = true := by simp
  simp only [List.find?_cons, hb]
  rfl

theorem mkdirRecAux_preserves : ∀ (segs : List String) (fs fs' : FS)
    (base : FsPath), mkdirRecAux fs base segs = some fs' →
    ∀ q n, lookup fs q = some n → lookup fs' q = some n := by
  intro segs
  induction segs with
  | nil =>
    intro fs fs' base h q n hq
    rw [mkdirRecAux] at h
    cases h
    exact hq
  | cons s rest ih =>
    intro fs fs' base h q n hq
    rw [mkdirRecAux] at h
    cases hl : lookup fs (base ++ [s]) with
    | none =>
      rw [hl] at h
      refine ih _ _ _ h q n ?_
      rw [lookup_cons_ne]
      · exact hq
      · intro heq
        rw [heq] at hl
        rw [hl] at hq
        exact Option.noConfusion hq
    | some nd =>
      rw [hl] at h
      cases nd with
      | file content => exact Option.noConfusion h
      | dir => exact ih _ _ _ h q n hq

theorem mkdirRecAux_idem : ∀ (segs : List String) (fs fs' : FS)
    (base : FsPath), mkdirRecAux fs base segs = some fs' →
    mkdirRecAux fs' base segs = some fs' := by
  intro segs
  induction segs with
  | nil =>
    intro fs fs' base h
    rw [mkdirRecAux] at h
    cases h
    rfl
  | cons s rest ih =>
    intro fs fs' base h
    rw [mkdirRecAux] at h
    rw [mkdirRecAux]
    cases hl : lookup fs (base ++ [s]) with
    | none =>
      rw [hl] at h
      have hfs' : lookup fs' (base ++ [s]) = some Node.dir := by
        refine mkdirRecAux_preserves rest _ _ _ h (base ++ [s]) Node.dir ?_
        exact lookup_cons_self fs (base ++ [s]) Node.dir (by simp)
      rw [hfs']
      exact ih _ _ _ h
    | some nd =>
      rw [hl] at h
      cases nd with
      | file content => exact Option.noConfusion h
      | dir =>
        have hfs' : lookup fs' (base ++ [s]) = some Node.dir :=
          mkdirRecAux_preserves rest _ _ _ h (base ++ [s]) Node.dir hl
        rw [hfs']
        exact ih _ _ _ h

theorem mkdirRec_idem (fs fs' : FS) (p : FsPath)
    (h : mkdirRec fs p = some fs') : mkdirRec fs' p = some fs' :=
  mkdirRecAux_idem p fs fs' [] h

/-- C8: when a mkdir command succeeds, issuing the identical command again
succeeds as well, produces the identical success response, and leaves the
filesystem exactly in the state reached after the first invocation (a
pre-existing directory is not an error). -/
theorem mkdir_idempotent (fs fs1 : FS) (c : Command) (r : Response)
    (h : createDirectory fs c = (fs1, [.resp r])) (hs : r.status = "success") :
    createDirectory fs1 c = (fs1, [.resp r]) := by
  cases hdn : c.dirName with
  | none =>
    simp only [createDirectory, hdn] at h
    injection h with hfs hev
    injection hev with he _
    injection he with hr
    rw [← hr] at hs
    exact absurd hs (by decide)
  | some dn =>
    by_cases hem : dn = ""
    · simp only [createDirectory, hdn, if_pos hem] at h
      injection h with hfs hev
      injection hev with he _
      injection he with hr
      rw [← hr] at hs
      exact absurd hs (by decide)
    · simp only [createDirectory, hdn, if_neg hem] at h
      cases hmk : mkdirRec fs ((c.path.getD []) ++ [dn]) with
      | none =>
        rw [hmk] at h
        injection h with hfs hev
        injection hev with he _
        injection he with hr
        rw [← hr] at hs
        exact absurd hs (by decide)
      | some fs2 =>
        rw [hmk] at h
        injection h with hfs hev
        injection hev with he _
        injection he with hr
        rw [← hfs, ← hr]
        simp only [createDirectory, hdn, if_neg hem]
        rw [mkdirRec_idem fs fs2 _ hmk]

/-- Witness for C8: creating "docs" under the empty root twice. -/
theorem mkdir_idempotent_witness :
    createDirectory [((["docs"] : FsPath), Node.dir)]
        { action := some "mkdir", dirName := some "docs" }
      = ([((["docs"] : FsPath), Node.dir)],
         [.resp { action := some "mkdir", status := "success",
                  dirName := some "docs", path := some ([] : FsPath) }]) :=
  mkdir_idempotent [] _ { action := some "mkdir", dirName := some "docs" } _
    rfl rfl

/-! ### Chunk progress sampling (C6) -/

/-- C6: the aggregator computes `total = lastChunkId + 1` and
`received = round(progress / 100 * total)` and emits the progress response
exactly when `received` is even or `received = total`; for `total = 10`
(and progress within 0..100) that means exactly at
`received ∈ {0, 2, 4, 6, 8, 10}`, and at `progress = 100` it always emits
because `received = total` there. -/
theorem chunk_progress_sampling (u : ChunkUpdate) :
    (chunkReceived u % 2 = 0 ∨ chunkReceived u = chunkTotal u →
      processUpdate u = [.resp (progressResp u)]) ∧
    (¬(chunkReceived u % 2 = 0 ∨ chunkReceived u = chunkTotal u) →
      processUpdate u = []) ∧
    (u.lastChunkId = 9 → 0 ≤ u.progress → u.progress ≤ 100 →
      (processUpdate u ≠ [] ↔
        chunkReceived u ∈ ([0, 2, 4, 6, 8, 10] : List Int))) ∧
    (u.progress = 100 →
      chunkReceived u = chunkTotal u ∧
      processUpdate u = [.resp (progressResp u)]) := by
  refine ⟨?_, ?_, ?_, ?_⟩
  · intro hc; rw [processUpdate, if_pos hc]
  · intro hc; rw [processUpdate, if_neg hc]
  · intro h9 h0 h100
    have htotal : chunkTotal u = 10 := by rw [chunkTotal, h9]; norm_num
    have hrec : chunkReceived u = ⌊u.progress / 10 + 1 / 2⌋ := by
      rw [chunkReceived, jsRound_eq_floor, htotal]
      have harg : u.progress / 100 * (((10 : Int) : ℚ)) = u.progress / 10 := by
        push_cast; ring
      rw [harg]
    have hlow : 0 ≤ chunkReceived u := by
      rw [hrec]
      refine Int.le_floor.mpr ?_
      push_cast
      have : (0 : ℚ) ≤ u.progress / 10 := by positivity
      linarith
    have hhigh : chunkReceived u ≤ 10 := by
      rw [hrec]
      refine Int.floor_le_iff.mpr ?_
      push_cast
      have : u.progress / 10 ≤ 10 := by linarith
      linarith
    have hiff : processUpdate u ≠ [] ↔
        (chunkReceived u % 2 = 0 ∨ chunkReceived u = chunkTotal u) := by
      constructor
      · intro hne
        by_contra hc
        exact hne (by rw [processUpdate, if_neg hc])
      · intro hc
        rw [processUpdate, if_pos hc]
        simp
    rw [hiff, htotal]
    simp only [List.mem_cons, List.not_mem_nil, or_false]
    omega
  · intro hp
    have h1 : chunkReceived u = chunkTotal u := by
      rw [chunkReceived, jsRound_eq_floor, hp]
      have harg : (100 : ℚ) / 100 * ((chunkTotal u : Int) : ℚ)
          = ((chunkTotal u : Int) : ℚ) := by norm_num
      rw [harg, add_comm, Int.floor_add_int]
      norm_num
    exact ⟨h1, by rw [processUpdate, if_pos (Or.inr h1)]⟩

/-- Witness for C6 at a completed ten-chunk transfer. -/
theorem chunk_progress_sampling_witness :
    (chunkReceived ⟨"m", 10, 9, (100 : ℚ)⟩ = chunkTotal ⟨"m", 10, 9, (100 : ℚ)⟩ ∧
      processUpdate ⟨"m", 10, 9, (100 : ℚ)⟩
        = [.resp (progressResp ⟨"m", 10, 9, (100 : ℚ)⟩)]) ∧
    (processUpdate ⟨"m", 10, 9, (100 : ℚ)⟩ ≠ [] ↔
      chunkReceived ⟨"m", 10, 9, (100 : ℚ)⟩ ∈ ([0, 2, 4, 6, 8, 10] : List Int)) :=
  ⟨(chunk_progress_sampling _).2.2.2 rfl,
   (chunk_progress_sampling _).2.2.1 rfl (by norm_num) (by norm_num)⟩

/-! ### Base64 round trip (C7) -/

theorem sextetsToBytes_bytesToSextets :
    ∀ (n : Nat) (l : List Nat), l.length ≤ n → (∀ b ∈ l, b < 256) →
      sextetsToBytes (bytesToSextets l) = l := by
  intro n
  induction n with
  | zero =>
    intro l hl _
    have hnil : l = [] := List.eq_nil_of_length_eq_zero (Nat.le_zero.mp hl)
    subst hnil
    rfl
  | succ n ih =>
    intro l hl hb
    rcases l with _ | ⟨a, l2⟩
    · rfl
    rcases l2 with _ | ⟨b, l3⟩
    · have ha : a < 256 := hb a (by simp)
      simp only [bytesToSextets, sextetsToBytes, List.cons.injEq, and_true]
      omega
    rcases l3 with _ | ⟨c, rest⟩
    · have ha : a < 256 := hb a (by simp)
      have hbb : b < 256 := hb b (by simp)
      simp only [bytesToSextets, sextetsToBytes, List.cons.injEq, and_true]
      refine ⟨?_, ?_⟩ <;> omega
    · have ha : a < 256 := hb a (by simp)
      have hbb : b < 256 := hb b (by simp)
      have hc : c < 256 := hb c (by simp)
      have hrest : ∀ x ∈ rest, x < 256 := fun x hx => hb x (by simp [hx])
      have hlen : rest.length ≤ n := by
        simp only [List.length_cons] at hl
        omega
      simp only [bytesToSextets, sextetsToBytes, List.cons.injEq]
      refine ⟨?_, ?_, ?_, ih rest hlen hrest⟩ <;> omega

theorem bytesToSextets_lt :
    ∀ (n : Nat) (l : List Nat), l.length ≤ n → (∀ b ∈ l, b < 256) →
      ∀ s ∈ bytesToSextets l, s < 64 := by
  intro n
  induction n with
  | zero =>
    intro l hl _ s hs
    have hnil : l = [] := List.eq_nil_of_length_eq_zero (Nat.le_zero.mp hl)
    subst hnil
    simp [bytesToSextets] at hs
  | succ n ih =>
    intro l hl hb s hs
    rcases l with _ | ⟨a, l2⟩
    · simp [bytesToSextets] at hs
    rcases l2 with _ | ⟨b, l3⟩
    · have ha : a < 256 := hb a (by simp)
      simp only [bytesToSextets, List.mem_cons, List.not_mem_nil, or_false] at hs
      rcases hs with rfl | rfl <;> omega
    rcases l3 with _ | ⟨c, rest⟩
    · have ha : a < 256 := hb a (by simp)
      have hbb : b < 256 := hb b (by simp)
      simp only [bytesToSextets, List.mem_cons, List.not_mem_nil, or_false] at hs
      rcases hs with rfl | rfl | rfl <;> omega
    · have ha : a < 256 := hb a (by simp)
      have hbb : b < 256 := hb b (by simp)
      have hc : c < 256 := hb c (by simp)
      simp only [bytesToSextets, List.mem_cons] at hs
      rcases hs with rfl | rfl | rfl | rfl | h
      · omega
      · omega
      · omega
      · omega
      · refine ih rest ?_ (fun x hx => hb x (by simp [hx])) s h
        simp only [List.length_cons] at hl
        omega

theorem sextetsToBytes_lt :
    ∀ (n : Nat) (sx : List Nat), sx.length ≤ n → (∀ s ∈ sx, s < 64) →
      ∀ b ∈ sextetsToBytes sx, b < 256 := by
  intro n
  induction n with
  | zero =>
    intro sx hl _ b hbmem
    have hnil : sx = [] := List.eq_nil_of_length_eq_zero (Nat.le_zero.mp hl)
    subst hnil
    simp [sextetsToBytes] at hbmem
  | succ n ih =>
    intro sx hl hs b hbmem
    rcases sx with _ | ⟨w, s2⟩
    · simp [sextetsToBytes] at hbmem
    rcases s2 with _ | ⟨x, s3⟩
    · simp [sextetsToBytes] at hbmem
    rcases s3 with _ | ⟨y, s4⟩
    · have hw : w < 64 := hs w (by simp)
      have hx : x < 64 := hs x (by simp)
      simp only [sextetsToBytes, List.mem_cons, List.not_mem_nil, or_false] at hbmem
      subst hbmem
      omega
    rcases s4 with _ | ⟨z, rest⟩
    · have hw : w < 64 := hs w (by simp)
      have hx : x < 64 := hs x (by simp)
      have hy : y < 64 := hs y (by simp)
      simp only [sextetsToBytes, List.mem_cons, List.not_mem_nil, or_false] at hbmem
      rcases hbmem with rfl | rfl <;> omega
    · have hw : w < 64 := hs w (by simp)
      have hx : x < 64 := hs x (by simp)
      have hy : y < 64 := hs y (by simp)
      have hz : z < 64 := hs z (by simp)
      simp only [sextetsToBytes, List.mem_cons] at hbmem
      rcases hbmem with rfl | rfl | rfl | h
      · omega
      · omega
      · omega
      · refine ih rest ?_ (fun v hv => hs v (by simp [hv])) b h
        simp only [List.length_cons] at hl
        omega

theorem b64IndexAux_lt : ∀ (l : List Nat) (c i j : Nat),
    b64IndexAux c l i = some j → j < i + l.length := by
  intro l
  induction l with
  | nil => intro c i j h; exact Option.noConfusion h
  | cons a rest ih =>
    intro c i j h
    rw [b64IndexAux] at h
    by_cases hac : a = c
    · rw [if_pos hac] at h
      injection h with h
      subst h
      simp only [List.length_cons]
      omega
    · rw [if_neg hac] at h
      have := ih c (i + 1) j h
      simp only [List.length_cons]
      omega

theorem b64Index_lt (c j : Nat) (h : b64Index c = some j) : j < 64 := by
  have hb := b64IndexAux_lt b64Alphabet c 0 j h
  have hlen : b64Alphabet.length = 64 := rfl
  omega

theorem b64Index_char : ∀ s, s < 64 → b64Index (b64CharOfSextet s) = some s := by
  decide

theorem filterMap_b64Index_map :
    ∀ (sx : List Nat), (∀ s ∈ sx, s < 64) →
      (sx.map b64CharOfSextet).filterMap b64Index = sx := by
  intro sx
  induction sx with
  | nil => intro _; rfl
  | cons s rest ih =>
    intro h
    have hs := h s (by simp)
    rw [List.map_cons, List.filterMap_cons, b64Index_char s hs,
      ih (fun x hx => h x (by simp [hx]))]

theorem filterMap_b64Index_pad (k : Nat) :
    (b64Pad k).filterMap b64Index = [] := by
  rw [b64Pad]
  by_cases h1 : k = 1
  · rw [if_pos h1]; decide
  · rw [if_neg h1]
    by_cases h2 : k = 2
    · rw [if_pos h2]; decide
    · rw [if_neg h2]; rfl

theorem b64Decode_b64Encode (l : List Nat) (h : ∀ b ∈ l, b < 256) :
    b64Decode (b64Encode l) = l := by
  rw [b64Encode, b64Decode, List.filterMap_append, filterMap_b64Index_pad,
    List.append_nil,
    filterMap_b64Index_map _ (bytesToSextets_lt l.length l le_rfl h)]
  exact sextetsToBytes_bytesToSextets l.length l le_rfl h

theorem b64Decode_all_lt (d : List Nat) : ∀ b ∈ b64Decode d, b < 256 := by
  rw [b64Decode]
  refine sextetsToBytes_lt (d.filterMap b64Index).length _ le_rfl ?_
  intro s hs
  obtain ⟨c, _, hc⟩ := List.mem_filterMap.mp hs
  exact b64Index_lt c s hc

theorem writeFile_lookup (fs fs' : FS) (p : FsPath) (content : List Nat)
    (hp : p ≠ []) (h : writeFile fs p content = some fs') :
    lookup fs' p = some (Node.file content) := by
  rw [writeFile] at h
  cases hl : lookup fs p with
  | none =>
    rw [hl] at h
    injection h with h
    subst h
    exact lookup_cons_self _ _ _ hp
  | some nd =>
    rw [hl] at h
    cases nd with
    | dir => exact Option.noConfusion h
    | file old =>
      injection h with h
      subst h
      exact lookup_cons_self _ _ _ hp

/-- C7: after a successful upload of base64 data `d` for file `fn`, a
download of `fn` at the same path publishes a file-kind message whose
base64 body decodes to exactly the bytes `d` decodes to (the stored content
round-trips byte-exactly), followed by the success response. -/
theorem upload_download_roundtrip (fs fs2 : FS) (c : Command) (fn : String)
    (d : List Nat) (r : Response)
    (hfn : c.fileName = some fn) (hd : c.data = some d)
    (h : saveFile fs c = (fs2, [.resp r])) (hs : r.status = "success") :
    downloadFile fs2 { action := some "download", path := c.path, fileName := some fn }
      = (fs2, [.fileMsg fn (b64Decode d).length (b64Encode (b64Decode d)),
               .resp { action := some "download", status := "success",
                       fileName := some fn, path := some (c.path.getD []),
                       size := some (b64Decode d).length }]) ∧
    b64Decode (b64Encode (b64Decode d)) = b64Decode d := by
  simp only [saveFile, hfn, hd] at h
  by_cases hemp : fn = "" ∨ d = []
  · rw [if_pos hemp] at h
    injection h with hfs hev
    injection hev with he _
    injection he with hr
    rw [← hr] at hs
    exact absurd hs (by decide)
  · rw [if_neg hemp] at h
    cases hmk : mkdirRec fs (c.path.getD []) with
    | none =>
      rw [hmk] at h
      injection h with hfs hev
      injection hev with he _
      injection he with hr
      rw [← hr] at hs
      exact absurd hs (by decide)
    | some fs1 =>
      simp only [hmk] at h
      cases hw : writeFile fs1 ((c.path.getD []) ++ [fn]) (b64Decode d) with
      | none =>
        rw [hw] at h
        injection h with hfs hev
        injection hev with he _
        injection he with hr
        rw [← hr] at hs
        exact absurd hs (by decide)
      | some fs3 =>
        rw [hw] at h
        injection h with hfs hev
        have hfn2 : fn ≠ "" := fun he => hemp (Or.inl he)
        have hlook : lookup fs2 ((c.path.getD []) ++ [fn])
            = some (Node.file (b64Decode d)) := by
          rw [← hfs]
          exact writeFile_lookup fs1 fs3 _ _ (by simp) hw
        refine ⟨?_, b64Decode_b64Encode (b64Decode d) (b64Decode_all_lt d)⟩
        exact (download_publishes_then_confirms fs2
          { action := some "download", path := c.path, fileName := some fn }
          fn rfl hfn2).2 (b64Decode d) hlook

/-- Witness for C7: upload "TWFu" (decoding to [77, 97, 110]) then download. -/
theorem upload_download_roundtrip_witness :
    downloadFile [((["f.bin"] : FsPath), Node.file [77, 97, 110])]
        { action := some "download", path := none, fileName := some "f.bin" }
      = ([((["f.bin"] : FsPath), Node.file [77, 97, 110])],
         [.fileMsg "f.bin" (b64Decode [84, 87, 70, 117]).length
            (b64Encode (b64Decode [84, 87, 70, 117])),
          .resp { action := some "download", status := "success",
                  fileName := some "f.bin", path := some ([] : FsPath),
                  size := some (b64Decode [84, 87, 70, 117]).length }]) ∧
    b64Decode (b64Encode (b64Decode [84, 87, 70, 117]))
      = b64Decode [84, 87, 70, 117] :=
  upload_download_roundtrip []
    [((["f.bin"] : FsPath), Node.file [77, 97, 110])]
    { action := some "upload", fileName := some "f.bin",
      data := some [84, 87, 70, 117] }
    "f.bin" [84, 87, 70, 117]
    { action := some "upload", status := "success",
      fileName := some "f.bin", path := some ([] : FsPath), size := some 3 }
    rfl rfl (by decide) rfl
